import Mathlib

/-!
# Verification of the clavision-functions session and timetable core

Shallow embedding of the TypeScript backend (`database.ts`, `index.ts`):
the access-token session model, the per-user 6×5 timetable grid, and the
one-time LINE-login state store.

Modelling conventions:
* Firestore is a pair of association lists (document id, document data),
  one per collection used by the core (`user`, `lineLoginState`); the
  reference collections `class` and `room` play no role in the claims.
* `crypto.randomBytes`-based generation (`createRandomId`,
  `createAccessToken`) and the image download (`saveUserImageFromUrl`)
  are sources of external input; the embedded operations take the
  generated value as an explicit argument.
* `crypto.createHash("sha256") ... .digest("hex")` is kept abstract: every
  operation takes the digest function `sha : List Nat → String` (from the
  24-entry `Uint8Array` fed to `update` to the hex digest string) as a
  parameter.  The byte-array construction `accessTokenToTypedArray` is
  embedded exactly as written in the source, overlapping slices included.
* `async`/`await` sequencing becomes explicit state passing; a thrown
  `Error` becomes `Except.error` carrying the message string.
-/

namespace Clavision

/-- The `Week` union type: `"monday" | ... | "saturday"`. -/
inductive Week
  | monday | tuesday | wednesday | thursday | friday | saturday
deriving DecidableEq

/-- The `Time` union type: `"class1" | ... | "class5"`. -/
inductive Time
  | class1 | class2 | class3 | class4 | class5
deriving DecidableEq

/-- `ClassId` is a branded string in the source. -/
abbrev ClassId := String

/-- `ClassOfDay`: `{ [key in Time]: ClassId | null }`. -/
structure ClassOfDay where
  class1 : Option ClassId
  class2 : Option ClassId
  class3 : Option ClassId
  class4 : Option ClassId
  class5 : Option ClassId
deriving DecidableEq

/-- `ClassOfWeek`: `{ [key in Week]: ClassOfDay }`. -/
structure ClassOfWeek where
  monday : ClassOfDay
  tuesday : ClassOfDay
  wednesday : ClassOfDay
  thursday : ClassOfDay
  friday : ClassOfDay
  saturday : ClassOfDay
deriving DecidableEq

/-- Reading one property of a `ClassOfDay` object by `Time` key. -/
def ClassOfDay.timeGet (d : ClassOfDay) : Time → Option ClassId
  | .class1 => d.class1
  | .class2 => d.class2
  | .class3 => d.class3
  | .class4 => d.class4
  | .class5 => d.class5

/-- Reading one property of a `ClassOfWeek` object by `Week` key. -/
def ClassOfWeek.weekGet (g : ClassOfWeek) : Week → ClassOfDay
  | .monday => g.monday
  | .tuesday => g.tuesday
  | .wednesday => g.wednesday
  | .thursday => g.thursday
  | .friday => g.friday
  | .saturday => g.saturday

/-- One cell of the 6×5 grid, `grid[week][time]`. -/
def ClassOfWeek.cell (g : ClassOfWeek) (w : Week) (t : Time) : Option ClassId :=
  (g.weekGet w).timeGet t

/-- The object spread `{ ...d, [time]: v }` on a `ClassOfDay`. -/
def ClassOfDay.timeSet (d : ClassOfDay) (t : Time) (v : Option ClassId) :
    ClassOfDay :=
  match t with
  | .class1 => { d with class1 := v }
  | .class2 => { d with class2 := v }
  | .class3 => { d with class3 := v }
  | .class4 => { d with class4 := v }
  | .class5 => { d with class5 := v }

/-- The object spread `{ ...g, [week]: d }` on a `ClassOfWeek`. -/
def ClassOfWeek.weekSet (g : ClassOfWeek) (w : Week) (d : ClassOfDay) :
    ClassOfWeek :=
  match w with
  | .monday => { g with monday := d }
  | .tuesday => { g with tuesday := d }
  | .wednesday => { g with wednesday := d }
  | .thursday => { g with thursday := d }
  | .friday => { g with friday := d }
  | .saturday => { g with saturday := d }

/-- The nested update `{ ...g, [week]: { ...g[week], [time]: v } }`; this
is also the effect on a stored full grid of the Firestore merge write
`set({ classInTimeTable: { [week]: { [time]: v } } }, { merge: true })`. -/
def ClassOfWeek.cellSet (g : ClassOfWeek) (w : Week) (t : Time)
    (v : Option ClassId) : ClassOfWeek :=
  g.weekSet w ((g.weekGet w).timeSet t v)

/-- `UserData`: one document of the `user` collection.
`admin.firestore.Timestamp` is modelled as a natural number. -/
structure UserData where
  name : String
  lineUserId : String
  imageFileHash : String
  lastIssuedAccessTokenHash : String
  classInTimeTable : ClassOfWeek
  createdAt : Nat
deriving DecidableEq

/-- `UserOutType = Pick<UserData, "classInTimeTable" | "imageFileHash" |
"name"> & { id: UserId }`. -/
structure UserOutType where
  id : String
  name : String
  imageFileHash : String
  classInTimeTable : ClassOfWeek
deriving DecidableEq

/-- The two Firestore collections the session/timetable core touches, as
association lists from document id to document data.  A `lineLoginState`
document stores only `createdAt`. -/
structure Firestore where
  lineLoginState : List (String × Nat)
  user : List (String × UserData)
deriving DecidableEq

/-! ## The identity hasher (`accessTokenToTypedArray`, `hashAccessToken`) -/

/-- Value of one hexadecimal digit character, as recognised by JavaScript
`Number.parseInt(_, 16)`. -/
def hexDigitVal (c : Char) : Option Nat :=
  if '0' ≤ c ∧ c ≤ '9' then some (c.toNat - '0'.toNat)
  else if 'a' ≤ c ∧ c ≤ 'f' then some (c.toNat - 'a'.toNat + 10)
  else if 'A' ≤ c ∧ c ≤ 'F' then some (c.toNat - 'A'.toNat + 10)
  else none

/-- Greedy accumulation of hexadecimal digits, stopping at the first
non-digit. -/
def parseHexDigitsAux : List Char → Nat → Nat
  | [], acc => acc
  | c :: rest, acc =>
    match hexDigitVal c with
    | none => acc
    | some v => parseHexDigitsAux rest (acc * 16 + v)

/-- `Number.parseInt(s, 16)` on a string of hexadecimal digits (the
slices of an access token): `none` models `NaN` (no leading digit). -/
def parseIntHex (s : String) : Option Nat :=
  match s.data with
  | [] => none
  | c :: rest =>
    match hexDigitVal c with
    | none => none
    | some v => some (parseHexDigitsAux rest v)

/-- Storing a `Number.parseInt` result into a `Uint8Array` entry: `NaN`
becomes `0`, other values are taken modulo 256. -/
def uint8Store : Option Nat → Nat
  | none => 0
  | some n => n % 256

/-- JavaScript `s.slice(a, b)` for `0 ≤ a ≤ b`. -/
def jsSlice (s : String) (a b : Nat) : String :=
  ⟨(s.data.drop a).take (b - a)⟩

/-- `accessTokenToTypedArray`: builds the 24-entry `Uint8Array` with
`binary[i] = Number.parseInt(accessToken.slice(i, i + 2), 16)` for
`i = 0 .. 23` — the slices overlap, exactly as in the source. -/
def accessTokenToTypedArray (accessToken : String) : List Nat :=
  (List.range 24).map fun i => uint8Store (parseIntHex (jsSlice accessToken i (i + 2)))

/-- `hashAccessToken`: SHA-256 (the abstract digest parameter `sha`)
applied to the typed array built from the token. -/
def hashAccessToken (sha : List Nat → String) (accessToken : String) : String :=
  sha (accessTokenToTypedArray accessToken)

/-! ## The LINE-login state store -/

/-- `generateAndWriteLineLoginState`: writes a fresh `lineLoginState`
document whose id is the random value.  The random value produced by
`createRandomId` and the current time are the explicit arguments; Firestore
`create` rejects an already existing document id. -/
def generateAndWriteLineLoginState (state : String) (now : Nat)
    (store : Firestore) : Except String (String × Firestore) :=
  if store.lineLoginState.any (fun p => p.1 = state) then
    .error "lineLoginState document already exists"
  else
    .ok (state,
      { store with lineLoginState := (state, now) :: store.lineLoginState })

/-- `checkExistsAndDeleteState`: reads the `lineLoginState` document named
by `state`; when its data exists, deletes the document and returns `true`,
otherwise returns `false` leaving the store untouched. -/
def checkExistsAndDeleteState (state : String) (store : Firestore) :
    Bool × Firestore :=
  match store.lineLoginState.find? (fun p => p.1 = state) with
  | some _ =>
      (true,
       { store with
          lineLoginState := store.lineLoginState.filter (fun p => p.1 ≠ state) })
  | none => (false, store)

/-! ## The user store -/

/-- Result type of `getUser` (name, grid and image hash of one user). -/
structure GetUserResult where
  name : String
  classInTimeTable : ClassOfWeek
  imageFileHash : String
deriving DecidableEq

/-- `getUser`: reads the `user` document with the given id; a missing
document raises `` `userId ${id} dose not exits` ``. -/
def getUser (id : String) (store : Firestore) : Except String GetUserResult :=
  match store.user.find? (fun p => p.1 = id) with
  | none => .error ("userId " ++ id ++ " dose not exits")
  | some p =>
      .ok { name := p.2.name
            classInTimeTable := p.2.classInTimeTable
            imageFileHash := p.2.imageFileHash }

/-- `getUserFromLineAccountId`: equality query on the `lineUserId` field,
returning `docs[0]` (the first matching document) or `null`. -/
def getUserFromLineAccountId (lineUserId : String) (store : Firestore) :
    Option (String × UserData) :=
  store.user.find? (fun p => p.2.lineUserId = lineUserId)

/-- The grid literal written out in `createUser`: every one of the 30
cells is `null`. -/
def initialClassOfDay : ClassOfDay :=
  { class1 := none, class2 := none, class3 := none, class4 := none,
    class5 := none }

/-- The six-day grid literal written out in `createUser`. -/
def initialClassOfWeek : ClassOfWeek :=
  { monday := initialClassOfDay, tuesday := initialClassOfDay,
    wednesday := initialClassOfDay, thursday := initialClassOfDay,
    friday := initialClassOfDay, saturday := initialClassOfDay }

/-- `createUser`: creates the `user` document.  The random `userId` and
`accessToken` (from `createRandomId` / `createAccessToken`), the stored
image hash (result of `saveUserImageFromUrl`) and the current time are
explicit arguments; Firestore `create` rejects an existing id.  Returns
the raw access token; only its hash is stored. -/
def createUser (sha : List Nat → String) (name : String)
    (imageFileHash : String) (lineUserId : String) (userId : String)
    (accessToken : String) (now : Nat) (store : Firestore) :
    Except String (String × Firestore) :=
  if store.user.any (fun p => p.1 = userId) then
    .error "user document already exists"
  else
    .ok (accessToken,
      { store with
          user := (userId,
            { name := name
              createdAt := now
              imageFileHash := imageFileHash
              lastIssuedAccessTokenHash := hashAccessToken sha accessToken
              lineUserId := lineUserId
              classInTimeTable := initialClassOfWeek }) :: store.user })

/-- The effect on the `user` collection of a Firestore write addressed to
`doc(userId)` that replaces part of that document's data by `f`. -/
def updateUserDoc (userId : String) (f : UserData → UserData)
    (l : List (String × UserData)) : List (String × UserData) :=
  l.map fun p => if p.1 = userId then (p.1, f p.2) else p

/-- `updateAccessToken`: overwrites `lastIssuedAccessTokenHash` of the
given user document with the hash of the fresh token (the explicit
`newAccessToken` argument) and returns the raw token.  Firestore `update`
rejects a missing document. -/
def updateAccessToken (sha : List Nat → String) (userId : String)
    (newAccessToken : String) (store : Firestore) :
    Except String (String × Firestore) :=
  if store.user.any (fun p => p.1 = userId) then
    .ok (newAccessToken,
      { store with
          user := updateUserDoc userId
            (fun d => { d with
              lastIssuedAccessTokenHash := hashAccessToken sha newAccessToken })
            store.user })
  else .error "user document does not exist"

/-- The message of the error thrown by `verifyAccessTokenAndGetUserData`
when no user stores the presented token's hash. -/
def invalidSessionMessage : String :=
  "他の端末でログインされたのでアクセストークンが無効になりました"

/-- `verifyAccessTokenAndGetUserData`: hashes the presented token, runs
the equality query on `lastIssuedAccessTokenHash` and takes `docs[0]`;
throws the invalid-session error when the query is empty. -/
def verifyAccessTokenAndGetUserData (sha : List Nat → String)
    (accessToken : String) (store : Firestore) : Except String UserOutType :=
  match store.user.find?
      (fun p => p.2.lastIssuedAccessTokenHash = hashAccessToken sha accessToken) with
  | none => .error invalidSessionMessage
  | some p =>
      .ok { id := p.1
            name := p.2.name
            imageFileHash := p.2.imageFileHash
            classInTimeTable := p.2.classInTimeTable }

/-- `setClass`: verifies the token, then merge-writes the single nested
cell `{ classInTimeTable: { [week]: { [time]: classId } } }` to the user's
document and returns the read snapshot with that one cell replaced by the
spread `{ ...userData.classInTimeTable, [week]: { ... , [time]: classId } }`. -/
def setClass (sha : List Nat → String) (accessToken : String) (week : Week)
    (time : Time) (classId : Option ClassId) (store : Firestore) :
    Except String (UserOutType × Firestore) :=
  match verifyAccessTokenAndGetUserData sha accessToken store with
  | .error e => .error e
  | .ok userData =>
      .ok ({ userData with
              classInTimeTable :=
                userData.classInTimeTable.cellSet week time classId },
           { store with
              user := updateUserDoc userData.id
                (fun d => { d with
                  classInTimeTable := d.classInTimeTable.cellSet week time classId })
                store.user })

/-! ## The HTTP login callback (`lineLoginCallback` in `index.ts`) -/

/-- `appHostName` from `data.ts`. -/
def appHostName : String := "clavision.web.app"

/-- `appHttpsSchemeAndHostName` from `data.ts`. -/
def appHttpsSchemeAndHostName : String := "https://" ++ appHostName

/-- `createAccessTokenUrl`: `urlFrom(appHostName, [], {}, {accessToken})`
builds `https://clavision.web.app#accessToken=<token>` (the token rides in
the fragment). -/
def createAccessTokenUrl (accessToken : String) : String :=
  "https://" ++ appHostName ++ "#accessToken=" ++ accessToken

/-- Identity data extracted from a verified LINE id token. -/
structure LineProfile where
  sub : String
  name : String
  picture : String
deriving DecidableEq

/-- Observable outcome of one `lineLoginCallback` request. -/
inductive HttpResult
  | redirect (url : String)
  | badRequest (message : String)
  | serverError
deriving DecidableEq

/-- `lineLoginCallback`: the OAuth redirect endpoint.  `exchange` models
the external code-for-id-token exchange followed by
`verifyAccessTokenAndGetData` (JWT verification): `none` when the upstream
call or the verification rejects.  `imageFileHash`, `newUserId`,
`newAccessToken` and `now` stand for the image download and the random
generation inside `createUser` / `updateAccessToken`.  A rejected inner
promise surfaces as `serverError`. -/
def lineLoginCallback (sha : List Nat → String)
    (exchange : String → Option LineProfile) (imageFileHash : String)
    (newUserId : String) (newAccessToken : String) (now : Nat)
    (code state : Option String) (store : Firestore) :
    HttpResult × Firestore :=
  match code, state with
  | some codeValue, some stateValue =>
    match checkExistsAndDeleteState stateValue store with
    | (false, store₁) =>
        (.badRequest ("LINE LogIn Error: Definy dose not generate state (" ++
          stateValue ++ ")"), store₁)
    | (true, store₁) =>
      match exchange codeValue with
      | none => (.serverError, store₁)
      | some lineData =>
        match getUserFromLineAccountId lineData.sub store₁ with
        | none =>
          match createUser sha lineData.name imageFileHash lineData.sub
              newUserId newAccessToken now store₁ with
          | .error _ => (.serverError, store₁)
          | .ok (accessToken, store₂) =>
              (.redirect (createAccessTokenUrl accessToken), store₂)
        | some userData =>
          match updateAccessToken sha userData.1 newAccessToken store₁ with
          | .error _ => (.serverError, store₁)
          | .ok (accessToken, store₂) =>
              (.redirect (createAccessTokenUrl accessToken), store₂)
  | _, _ => (.redirect appHttpsSchemeAndHostName, store)

/-! ## Enumeration of the 30 grid cells -/

/-- All six `Week` keys, in source order. -/
def weekList : List Week :=
  [.monday, .tuesday, .wednesday, .thursday, .friday, .saturday]

/-- All five `Time` keys, in source order. -/
def timeList : List Time :=
  [.class1, .class2, .class3, .class4, .class5]

/-- The 30 `(day, period)` keys of a timetable grid. -/
def allCells : List (Week × Time) := weekList.product timeList

/-! ## Concrete probe values for evaluating the development -/

/-- An injective stand-in for the SHA-256 hex digest, used to evaluate
the development on concrete inputs: base-256 value of the byte list. -/
def shaProbe (l : List Nat) : String :=
  Nat.repr (l.foldl (fun a n => a * 256 + n) 1)

/-- A valid 48-character hex access token: 48 zeros. -/
def collisionTokenA : String :=
  "000000000000000000000000000000000000000000000000"

/-- A valid 48-character hex access token agreeing with
`collisionTokenA` on its first 25 characters only. -/
def collisionTokenB : String :=
  "0000000000000000000000000fffffffffffffffffffffff"

/-- A valid 48-character hex access token whose byte conversion differs
from that of `collisionTokenA`. -/
def freshToken : String :=
  "100000000000000000000000000000000000000000000000"

/-- The empty store, for concrete evaluation. -/
def probeStoreEmpty : Firestore := { lineLoginState := [], user := [] }

/-- A user document whose stored digest is that of `collisionTokenA`
under `shaProbe`, for concrete evaluation. -/
def probeUserData : UserData :=
  { name := "n", lineUserId := "line1", imageFileHash := "img1",
    lastIssuedAccessTokenHash := hashAccessToken shaProbe collisionTokenA,
    classInTimeTable := initialClassOfWeek, createdAt := 0 }

/-- The store produced by the concrete `createUser` run of the C8
witness; also the one-user store of the other witnesses. -/
def probeStoreCreated : Firestore :=
  { lineLoginState := [], user := [("u1", probeUserData)] }

/-- The session data returned for `probeUserData` by a successful
verification. -/
def probeUserOut : UserOutType :=
  { id := "u1", name := "n", imageFileHash := "img1",
    classInTimeTable := initialClassOfWeek }

/-- The store holding the single issued login state of the C3 witness. -/
def probeStoreWithState : Firestore :=
  { lineLoginState := [("state1", 7)], user := [] }

/-- An external exchange oracle that rejects every authorization code,
for concrete evaluation of `lineLoginCallback`. -/
def probeExchange : String → Option LineProfile := fun _ => none

/-! ## Grid update lemmas -/

lemma ClassOfDay.timeGet_timeSet_self (d : ClassOfDay) (t : Time)
    (v : Option ClassId) : (d.timeSet t v).timeGet t = v := by
  cases t <;> rfl

lemma ClassOfDay.timeGet_timeSet_of_ne (d : ClassOfDay) (t t' : Time)
    (v : Option ClassId) (h : t' ≠ t) :
    (d.timeSet t v).timeGet t' = d.timeGet t' := by
  cases t <;> cases t' <;> first | rfl | exact absurd rfl h

lemma ClassOfWeek.weekGet_weekSet_self (g : ClassOfWeek) (w : Week)
    (d : ClassOfDay) : (g.weekSet w d).weekGet w = d := by
  cases w <;> rfl

lemma ClassOfWeek.weekGet_weekSet_of_ne (g : ClassOfWeek) (w w' : Week)
    (d : ClassOfDay) (h : w' ≠ w) :
    (g.weekSet w d).weekGet w' = g.weekGet w' := by
  cases w <;> cases w' <;> first | rfl | exact absurd rfl h

lemma ClassOfWeek.cell_cellSet_self (g : ClassOfWeek) (w : Week) (t : Time)
    (v : Option ClassId) : (g.cellSet w t v).cell w t = v := by
  unfold cellSet cell
  rw [weekGet_weekSet_self, ClassOfDay.timeGet_timeSet_self]

lemma ClassOfWeek.cell_cellSet_of_ne (g : ClassOfWeek) (w : Week) (t : Time)
    (v : Option ClassId) (w' : Week) (t' : Time) (h : (w', t') ≠ (w, t)) :
    (g.cellSet w t v).cell w' t' = g.cell w' t' := by
  by_cases hw : w' = w
  · subst hw
    have ht : t' ≠ t := fun ht => h (by rw [ht])
    unfold cellSet cell
    rw [weekGet_weekSet_self, ClassOfDay.timeGet_timeSet_of_ne _ _ _ _ ht]
  · unfold cellSet cell
    rw [weekGet_weekSet_of_ne _ _ _ _ hw]

lemma ClassOfWeek.cellSet_cellSet_same (g : ClassOfWeek) (w : Week) (t : Time)
    (v : Option ClassId) :
    (g.cellSet w t v).cellSet w t v = g.cellSet w t v := by
  cases w <;> cases t <;> rfl

/-! ## The hasher reads only the first 25 characters -/

lemma take_two_drop_of_take25_eq {l m : List Char} (i : Nat) (hi : i + 2 ≤ 25)
    (h : l.take 25 = m.take 25) : (l.drop i).take 2 = (m.drop i).take 2 := by
  have h1 : ∀ x : List Char, ((x.take 25).drop i).take 2 = (x.drop i).take 2 := by
    intro x
    rw [List.drop_take, List.take_take]
    congr 1
    omega
  rw [← h1 l, ← h1 m, h]

lemma accessTokenToTypedArray_eq_of_take25_eq (s t : String)
    (h : s.data.take 25 = t.data.take 25) :
    accessTokenToTypedArray s = accessTokenToTypedArray t := by
  unfold accessTokenToTypedArray
  apply List.map_congr_left
  intro i hi
  have hi' : i < 24 := List.mem_range.mp hi
  have hslice : jsSlice s i (i + 2) = jsSlice t i (i + 2) := by
    unfold jsSlice
    have h2 : i + 2 - i = 2 := by omega
    rw [h2]
    exact congrArg String.mk (take_two_drop_of_take25_eq i (by omega) h)
  rw [hslice]

/-- C10: `hashAccessToken` depends only on the first 25 characters of the
token: whenever two tokens agree on characters 0–24, the byte-conversion
loop (which reads the overlapping slices `token.slice(i, i + 2)` for
`i = 0..23`, never past index 24) produces the same `Uint8Array`, so the
digests coincide for every digest function. -/
theorem hashAccessToken_eq_of_take25_eq (sha : List Nat → String)
    (s t : String) (h : s.data.take 25 = t.data.take 25) :
    hashAccessToken sha s = hashAccessToken sha t :=
  congrArg sha (accessTokenToTypedArray_eq_of_take25_eq s t h)

/-- Witness for C10 at the two concrete tokens. -/
theorem hashAccessToken_eq_of_take25_eq_witness :
    collisionTokenA.data.take 25 = collisionTokenB.data.take 25 ∧
    hashAccessToken shaProbe collisionTokenA =
      hashAccessToken shaProbe collisionTokenB :=
  ⟨by decide,
   hashAccessToken_eq_of_take25_eq shaProbe collisionTokenA collisionTokenB
     (by decide)⟩

/-- C5: the code contradicts the claimed collision-freedom.  The two
distinct 48-character hex tokens `collisionTokenA ≠ collisionTokenB` are
converted to the *same* 24-byte array (the conversion loop reads
overlapping slices and never looks past character index 24), so they
receive identical digests under any digest function — in particular under
the injective `shaProbe`.  Determinism, the other half of the claim, is
definitional (`hashAccessToken` is a function of the token). -/
theorem hashAccessToken_collision :
    collisionTokenA ≠ collisionTokenB ∧
    accessTokenToTypedArray collisionTokenA =
      accessTokenToTypedArray collisionTokenB ∧
    hashAccessToken shaProbe collisionTokenA =
      hashAccessToken shaProbe collisionTokenB :=
  ⟨by decide, by decide, congrArg shaProbe (by decide)⟩

/-! ## C8: the grid written by `createUser` -/

/-- C8: a user record created by `createUser` carries a timetable grid
with exactly the 30 cells of `allCells` (one per `(day, period)` pair,
without duplicates, covering every pair), every one of them `null`. -/
theorem createUser_initial_timetable (sha : List Nat → String)
    (nm img lid uid tok : String) (now : Nat) (store : Firestore)
    (tok' : String) (store' : Firestore)
    (h : createUser sha nm img lid uid tok now store = .ok (tok', store')) :
    ∃ d : UserData, store'.user = (uid, d) :: store.user ∧
      allCells.length = 30 ∧ allCells.Nodup ∧
      (∀ w t, (w, t) ∈ allCells) ∧
      ∀ c ∈ allCells, d.classInTimeTable.cell c.1 c.2 = none := by
  unfold createUser at h
  split at h
  · exact absurd h (by simp)
  · simp only [Except.ok.injEq, Prod.mk.injEq] at h
    obtain ⟨-, rfl⟩ := h
    refine ⟨_, rfl, by decide, by decide, ?_, ?_⟩
    · intro w t
      cases w <;> cases t <;> decide
    · intro c hc
      have : initialClassOfWeek.cell c.1 c.2 = none := by
        obtain ⟨w, t⟩ := c
        cases w <;> cases t <;> rfl
      simpa using this

/-- Witness for C8: one concrete `createUser` run. -/
theorem createUser_initial_timetable_witness :
    createUser shaProbe "n" "img1" "line1" "u1" collisionTokenA 0
      probeStoreEmpty = .ok (collisionTokenA, probeStoreCreated) ∧
    ∃ d : UserData,
      probeStoreCreated.user = ("u1", d) :: probeStoreEmpty.user ∧
      allCells.length = 30 ∧ allCells.Nodup ∧
      (∀ w t, (w, t) ∈ allCells) ∧
      ∀ c ∈ allCells, d.classInTimeTable.cell c.1 c.2 = none :=
  ⟨rfl,
   createUser_initial_timetable shaProbe "n" "img1" "line1" "u1"
     collisionTokenA 0 probeStoreEmpty collisionTokenA probeStoreCreated rfl⟩

/-! ## C3: one-time consumption of a login state -/

/-- C3: a state value issued by `generateAndWriteLineLoginState` is
consumed by the first `checkExistsAndDeleteState` call, which returns
`true` and deletes the record (restoring the pre-issue store); the second
call with the same value returns `false`; and a call with a never-issued
value returns `false` and leaves the store untouched. -/
theorem loginState_consumed_exactly_once (state : String) (now : Nat)
    (store store₁ : Firestore)
    (h : generateAndWriteLineLoginState state now store = .ok (state, store₁)) :
    checkExistsAndDeleteState state store₁ = (true, store) ∧
    checkExistsAndDeleteState state store = (false, store) ∧
    ∀ s, (∀ p ∈ store.lineLoginState, p.1 ≠ s) →
      checkExistsAndDeleteState s store = (false, store) := by
  unfold generateAndWriteLineLoginState at h
  split at h
  case isTrue hcond => exact absurd h (by simp)
  case isFalse hcond =>
  simp only [Except.ok.injEq, Prod.mk.injEq] at h
  obtain ⟨-, rfl⟩ := h
  have hnot : ∀ p ∈ store.lineLoginState, ¬p.1 = state := by
    intro p hp hps
    exact hcond (List.any_eq_true.mpr ⟨p, hp, by simp [hps]⟩)
  have hmiss : ∀ s, (∀ p ∈ store.lineLoginState, p.1 ≠ s) →
      checkExistsAndDeleteState s store = (false, store) := by
    intro s hs
    unfold checkExistsAndDeleteState
    rw [List.find?_eq_none.mpr (fun p hp => by simp [hs p hp])]
  refine ⟨?_, hmiss state hnot, hmiss⟩
  unfold checkExistsAndDeleteState
  simp only []
  rw [List.find?_cons_of_pos _ (by simp)]
  have hfilter :
      ((state, now) :: store.lineLoginState).filter (fun p => p.1 ≠ state) =
        store.lineLoginState := by
    rw [List.filter_cons, if_neg (by simp)]
    exact List.filter_eq_self.mpr (fun p hp => by simp [hnot p hp])
  rw [hfilter]

/-- Witness for C3: one concrete issue/consume round. -/
theorem loginState_consumed_exactly_once_witness :
    generateAndWriteLineLoginState "state1" 7 probeStoreEmpty =
      .ok ("state1", probeStoreWithState) ∧
    (checkExistsAndDeleteState "state1" probeStoreWithState =
        (true, probeStoreEmpty) ∧
      checkExistsAndDeleteState "state1" probeStoreEmpty =
        (false, probeStoreEmpty) ∧
      ∀ s, (∀ p ∈ probeStoreEmpty.lineLoginState, p.1 ≠ s) →
        checkExistsAndDeleteState s probeStoreEmpty =
          (false, probeStoreEmpty)) :=
  ⟨rfl,
   loginState_consumed_exactly_once "state1" 7 probeStoreEmpty
     probeStoreWithState rfl⟩

/-! ## Association-list machinery for the `user` collection -/

/-- Among documents with pairwise distinct ids, any member with the
looked-up id is *the* member: Firestore document ids are unique. -/
lemma eq_of_mem_of_key_eq (l : List (String × UserData)) (uid : String)
    (d : UserData) (hkeys : l.Pairwise fun a b => a.1 ≠ b.1)
    (hmem : (uid, d) ∈ l) (p : String × UserData) (hp : p ∈ l)
    (hkey : p.1 = uid) : p = (uid, d) := by
  induction l with
  | nil => cases hmem
  | cons a rest ih =>
    obtain ⟨hhead, htail⟩ := List.pairwise_cons.mp hkeys
    rcases List.mem_cons.mp hp with rfl | hp'
    · rcases List.mem_cons.mp hmem with heq | hmem'
      · exact heq.symm
      · exact absurd hkey (by simpa using hhead _ hmem')
    · rcases List.mem_cons.mp hmem with heq | hmem'
      · have := hhead _ hp'
        rw [← heq] at this
        exact absurd hkey (by simpa [hkey] using this.symm)
      · exact ih htail hmem' hp'

/-- `find?` by document id returns the unique document with that id. -/
lemma find?_key_of_pairwise (l : List (String × UserData)) (uid : String)
    (d : UserData) (hkeys : l.Pairwise fun a b => a.1 ≠ b.1)
    (hmem : (uid, d) ∈ l) :
    l.find? (fun p => p.1 = uid) = some (uid, d) := by
  induction l with
  | nil => cases hmem
  | cons a rest ih =>
    obtain ⟨hhead, htail⟩ := List.pairwise_cons.mp hkeys
    by_cases ha : a.1 = uid
    · rw [List.find?_cons_of_pos _ (by simp [ha])]
      have : a = (uid, d) :=
        eq_of_mem_of_key_eq (a :: rest) uid d hkeys hmem a
          (List.mem_cons_self a rest) ha
      rw [this]
    · rw [List.find?_cons_of_neg _ (by simp [ha])]
      have hmem' : (uid, d) ∈ rest := by
        rcases List.mem_cons.mp hmem with heq | hmem'
        · exact absurd (by rw [← heq]) ha
        · exact hmem'
      exact ih htail hmem'

/-- A document-addressed write rewrites the one document and keeps `find?`
for any predicate that does not see the rewritten part. -/
lemma find?_updateUserDoc_of_invariant (uid : String) (f : UserData → UserData)
    (l : List (String × UserData)) (pred : String × UserData → Bool)
    (hpred : ∀ p : String × UserData,
      pred (if p.1 = uid then (p.1, f p.2) else p) = pred p) :
    (updateUserDoc uid f l).find? pred =
      (l.find? pred).map fun p => if p.1 = uid then (p.1, f p.2) else p := by
  unfold updateUserDoc
  rw [List.find?_map]
  have hcomp :
      pred ∘ (fun p : String × UserData =>
        if p.1 = uid then (p.1, f p.2) else p) = pred :=
    funext fun p => hpred p
  rw [hcomp]

/-- Composition of two writes addressed to the same document. -/
lemma updateUserDoc_updateUserDoc (uid : String) (f g : UserData → UserData)
    (l : List (String × UserData)) :
    updateUserDoc uid f (updateUserDoc uid g l) =
      updateUserDoc uid (fun d => f (g d)) l := by
  unfold updateUserDoc
  rw [List.map_map]
  apply List.map_congr_left
  intro p _
  by_cases h : p.1 = uid <;> simp [h]

/-- Two writes addressed to the same document agree when their data
transforms agree. -/
lemma updateUserDoc_congr (uid : String) (f g : UserData → UserData)
    (l : List (String × UserData)) (h : ∀ d, f d = g d) :
    updateUserDoc uid f l = updateUserDoc uid g l := by
  unfold updateUserDoc
  apply List.map_congr_left
  intro p _
  rw [show f = g from funext h]

/-- Elimination form of a successful `verifyAccessTokenAndGetUserData`:
the session data comes from the first user document whose stored hash
matches the presented token's hash. -/
lemma verify_ok_elim (sha : List Nat → String) (tok : String)
    (store : Firestore) (u : UserOutType)
    (h : verifyAccessTokenAndGetUserData sha tok store = .ok u) :
    ∃ p : String × UserData,
      store.user.find?
        (fun q => q.2.lastIssuedAccessTokenHash = hashAccessToken sha tok) =
        some p ∧
      u = { id := p.1, name := p.2.name, imageFileHash := p.2.imageFileHash,
            classInTimeTable := p.2.classInTimeTable } := by
  unfold verifyAccessTokenAndGetUserData at h
  split at h
  case h_1 => exact absurd h (by simp)
  case h_2 p heq =>
    refine ⟨p, heq, ?_⟩
    simpa using h.symm

/-! ## C6: the session verifier fails exactly on a missing hash match -/

/-- C6: `verifyAccessTokenAndGetUserData` throws the invalid-session
error if and only if no user document stores exactly the presented
token's digest; a successful verification returns the id, name, image
hash and timetable of a document whose stored digest equals it, and a
matching document guarantees success. -/
theorem verify_error_iff_no_hash_match (sha : List Nat → String)
    (tok : String) (store : Firestore) :
    (verifyAccessTokenAndGetUserData sha tok store =
        .error invalidSessionMessage ↔
      ∀ p ∈ store.user,
        p.2.lastIssuedAccessTokenHash ≠ hashAccessToken sha tok) ∧
    (∀ u, verifyAccessTokenAndGetUserData sha tok store = .ok u →
      ∃ d : UserData, (u.id, d) ∈ store.user ∧
        d.lastIssuedAccessTokenHash = hashAccessToken sha tok ∧
        u.name = d.name ∧ u.imageFileHash = d.imageFileHash ∧
        u.classInTimeTable = d.classInTimeTable) ∧
    ((∃ p ∈ store.user,
        p.2.lastIssuedAccessTokenHash = hashAccessToken sha tok) →
      ∃ u, verifyAccessTokenAndGetUserData sha tok store = .ok u) := by
  refine ⟨⟨?_, ?_⟩, ?_, ?_⟩
  · intro h p hp hhash
    unfold verifyAccessTokenAndGetUserData at h
    split at h
    case h_1 heq =>
      exact absurd (by simp [hhash]) (List.find?_eq_none.mp heq p hp)
    case h_2 => exact absurd h (by simp)
  · intro hnone
    unfold verifyAccessTokenAndGetUserData
    rw [List.find?_eq_none.mpr (fun p hp => by simp [hnone p hp])]
  · intro u h
    obtain ⟨p, hfind, rfl⟩ := verify_ok_elim sha tok store u h
    refine ⟨p.2, ?_, ?_, rfl, rfl, rfl⟩
    · exact List.mem_of_find?_eq_some hfind
    · simpa using List.find?_some hfind
  · intro ⟨p, hp, hhash⟩
    rcases hfind : store.user.find?
        (fun q => q.2.lastIssuedAccessTokenHash = hashAccessToken sha tok) with
      _ | q
    · exact absurd (by simp [hhash])
        (List.find?_eq_none.mp hfind p hp)
    · exact ⟨_, by unfold verifyAccessTokenAndGetUserData; rw [hfind]⟩

/-- Witness for C6 at a concrete store and token. -/
theorem verify_error_iff_no_hash_match_witness :
    (verifyAccessTokenAndGetUserData shaProbe collisionTokenA
        probeStoreCreated = .error invalidSessionMessage ↔
      ∀ p ∈ probeStoreCreated.user,
        p.2.lastIssuedAccessTokenHash ≠
          hashAccessToken shaProbe collisionTokenA) ∧
    (∀ u, verifyAccessTokenAndGetUserData shaProbe collisionTokenA
        probeStoreCreated = .ok u →
      ∃ d : UserData, (u.id, d) ∈ probeStoreCreated.user ∧
        d.lastIssuedAccessTokenHash =
          hashAccessToken shaProbe collisionTokenA ∧
        u.name = d.name ∧ u.imageFileHash = d.imageFileHash ∧
        u.classInTimeTable = d.classInTimeTable) ∧
    ((∃ p ∈ probeStoreCreated.user,
        p.2.lastIssuedAccessTokenHash =
          hashAccessToken shaProbe collisionTokenA) →
      ∃ u, verifyAccessTokenAndGetUserData shaProbe collisionTokenA
        probeStoreCreated = .ok u) :=
  verify_error_iff_no_hash_match shaProbe collisionTokenA probeStoreCreated

/-! ## C1: token reissue invalidates the old token -/

/-- After rewriting the user's stored digest to the new token's digest,
the hash query finds exactly the rewritten document, provided no document
already stored the new digest. -/
lemma find?_hash_after_update (sha : List Nat → String) (newTok uid : String)
    (d : UserData) (l : List (String × UserData))
    (hkeys : l.Pairwise fun a b => a.1 ≠ b.1)
    (hmem : (uid, d) ∈ l)
    (hfresh : ∀ p ∈ l,
      p.2.lastIssuedAccessTokenHash ≠ hashAccessToken sha newTok) :
    (updateUserDoc uid
        (fun x => { x with
          lastIssuedAccessTokenHash := hashAccessToken sha newTok }) l).find?
        (fun p => p.2.lastIssuedAccessTokenHash = hashAccessToken sha newTok) =
      some (uid, { d with
        lastIssuedAccessTokenHash := hashAccessToken sha newTok }) := by
  induction l with
  | nil => cases hmem
  | cons a rest ih =>
    obtain ⟨hhead, htail⟩ := List.pairwise_cons.mp hkeys
    unfold updateUserDoc
    simp only [List.map_cons]
    by_cases ha : a.1 = uid
    · have haeq : a = (uid, d) :=
        eq_of_mem_of_key_eq (a :: rest) uid d hkeys hmem a
          (List.mem_cons_self a rest) ha
      subst haeq
      rw [if_pos ha, List.find?_cons_of_pos _ (by simp)]
    · rw [if_neg ha,
        List.find?_cons_of_neg _
          (by simp [hfresh a (List.mem_cons_self a rest)])]
      have hmem' : (uid, d) ∈ rest := by
        rcases List.mem_cons.mp hmem with heq | hmem'
        · exact absurd (by rw [← heq]) ha
        · exact hmem'
      exact ih htail hmem'
        (fun p hp => hfresh p (List.mem_cons_of_mem a hp))

/-- C1: for a user whose stored digest is that of `oldTok`, once
`updateAccessToken` issues `newTok`, verifying `oldTok` fails with the
invalid-session error while verifying `newTok` succeeds and returns that
user's id, name, image hash and timetable — assuming the digest map is
injective on the two tokens and no other user stores either digest. -/
theorem reissue_invalidates_old_token (sha : List Nat → String)
    (uid oldTok newTok : String) (store : Firestore) (d : UserData)
    (hkeys : store.user.Pairwise fun a b => a.1 ≠ b.1)
    (hmem : (uid, d) ∈ store.user)
    (hold : d.lastIssuedAccessTokenHash = hashAccessToken sha oldTok)
    (hne : oldTok ≠ newTok)
    (hinj : Set.InjOn (hashAccessToken sha) {oldTok, newTok})
    (hothers : ∀ p ∈ store.user, p.1 ≠ uid →
      p.2.lastIssuedAccessTokenHash ≠ hashAccessToken sha oldTok ∧
      p.2.lastIssuedAccessTokenHash ≠ hashAccessToken sha newTok) :
    ∃ store' : Firestore,
      updateAccessToken sha uid newTok store = .ok (newTok, store') ∧
      verifyAccessTokenAndGetUserData sha oldTok store' =
        .error invalidSessionMessage ∧
      verifyAccessTokenAndGetUserData sha newTok store' =
        .ok { id := uid, name := d.name, imageFileHash := d.imageFileHash,
              classInTimeTable := d.classInTimeTable } := by
  have hhash : hashAccessToken sha newTok ≠ hashAccessToken sha oldTok := by
    intro h
    exact hne (hinj (by simp) (by simp) h.symm)
  have hfresh : ∀ p ∈ store.user,
      p.2.lastIssuedAccessTokenHash ≠ hashAccessToken sha newTok := by
    intro p hp
    by_cases hpk : p.1 = uid
    · have hpeq : p = (uid, d) :=
        eq_of_mem_of_key_eq store.user uid d hkeys hmem p hp hpk
      rw [hpeq]
      simpa [hold] using fun hcontra => hhash hcontra.symm
    · exact (hothers p hp hpk).2
  have hany : store.user.any (fun p => p.1 = uid) = true :=
    List.any_eq_true.mpr ⟨(uid, d), hmem, by simp⟩
  refine ⟨{ store with
      user := updateUserDoc uid
        (fun x => { x with
          lastIssuedAccessTokenHash := hashAccessToken sha newTok })
        store.user }, ?_, ?_, ?_⟩
  · unfold updateAccessToken
    rw [if_pos hany]
  · have hnone :
        (updateUserDoc uid
            (fun x => { x with
              lastIssuedAccessTokenHash := hashAccessToken sha newTok })
            store.user).find?
          (fun p => p.2.lastIssuedAccessTokenHash =
            hashAccessToken sha oldTok) = none := by
      apply List.find?_eq_none.mpr
      intro q hq
      obtain ⟨p, hp, hpq⟩ := List.mem_map.mp hq
      by_cases hpk : p.1 = uid
      · rw [if_pos hpk] at hpq
        simpa [← hpq] using hhash
      · rw [if_neg hpk] at hpq
        simpa [← hpq] using (hothers p hp hpk).1
    unfold verifyAccessTokenAndGetUserData
    rw [hnone]
  · have hfind :=
      find?_hash_after_update sha newTok uid d store.user hkeys hmem hfresh
    unfold verifyAccessTokenAndGetUserData
    rw [hfind]

/-- Witness for C1: the one-user probe store, `collisionTokenA` as the
old token and `freshToken` as the new one. -/
theorem reissue_invalidates_old_token_witness :
    ∃ store' : Firestore,
      updateAccessToken shaProbe "u1" freshToken probeStoreCreated =
        .ok (freshToken, store') ∧
      verifyAccessTokenAndGetUserData shaProbe collisionTokenA store' =
        .error invalidSessionMessage ∧
      verifyAccessTokenAndGetUserData shaProbe freshToken store' =
        .ok { id := "u1", name := probeUserData.name,
              imageFileHash := probeUserData.imageFileHash,
              classInTimeTable := probeUserData.classInTimeTable } :=
  reissue_invalidates_old_token shaProbe "u1" collisionTokenA freshToken
    probeStoreCreated probeUserData
    (by simp [probeStoreCreated])
    (by simp [probeStoreCreated])
    rfl
    (by decide)
    (by
      intro a ha b hb hab
      simp only [Set.mem_insert_iff, Set.mem_singleton_iff] at ha hb
      rcases ha with rfl | rfl <;> rcases hb with rfl | rfl
      · rfl
      · exact absurd hab (by decide)
      · exact absurd hab (by decide)
      · rfl)
    (by
      intro p hp hpk
      simp only [probeStoreCreated, List.mem_singleton] at hp
      subst hp
      exact absurd rfl hpk)

/-! ## C9: token reissue rewrites only the stored token hash -/

/-- C9: `updateAccessToken` performs one write that changes only the
`lastIssuedAccessTokenHash` field of the addressed user document: the
login-state collection, every other document, and the document's name,
LINE identity, image hash, creation time and all timetable cells are
unchanged — so verifying the new token afterwards returns the user's
timetable exactly as it was. -/
theorem updateAccessToken_frame (sha : List Nat → String)
    (uid newTok : String) (store : Firestore) (d : UserData)
    (hkeys : store.user.Pairwise fun a b => a.1 ≠ b.1)
    (hmem : (uid, d) ∈ store.user)
    (hfresh : ∀ p ∈ store.user,
      p.2.lastIssuedAccessTokenHash ≠ hashAccessToken sha newTok) :
    ∃ store' : Firestore,
      updateAccessToken sha uid newTok store = .ok (newTok, store') ∧
      store'.lineLoginState = store.lineLoginState ∧
      List.Forall₂ (fun p p' : String × UserData =>
          p'.1 = p.1 ∧ p'.2.name = p.2.name ∧
          p'.2.lineUserId = p.2.lineUserId ∧
          p'.2.imageFileHash = p.2.imageFileHash ∧
          p'.2.createdAt = p.2.createdAt ∧
          (∀ w t, p'.2.classInTimeTable.cell w t =
            p.2.classInTimeTable.cell w t) ∧
          (p.1 ≠ uid → p'.2.lastIssuedAccessTokenHash =
            p.2.lastIssuedAccessTokenHash) ∧
          (p.1 = uid → p'.2.lastIssuedAccessTokenHash =
            hashAccessToken sha newTok))
        store.user store'.user ∧
      verifyAccessTokenAndGetUserData sha newTok store' =
        .ok { id := uid, name := d.name, imageFileHash := d.imageFileHash,
              classInTimeTable := d.classInTimeTable } := by
  have hany : store.user.any (fun p => p.1 = uid) = true :=
    List.any_eq_true.mpr ⟨(uid, d), hmem, by simp⟩
  refine ⟨{ store with
      user := updateUserDoc uid
        (fun x => { x with
          lastIssuedAccessTokenHash := hashAccessToken sha newTok })
        store.user }, ?_, rfl, ?_, ?_⟩
  · unfold updateAccessToken
    rw [if_pos hany]
  · dsimp only
    unfold updateUserDoc
    rw [List.forall₂_map_right_iff, List.forall₂_same]
    intro p _
    by_cases hpk : p.1 = uid
    · simp [hpk]
    · simp [hpk]
  · have hfind :=
      find?_hash_after_update sha newTok uid d store.user hkeys hmem hfresh
    unfold verifyAccessTokenAndGetUserData
    rw [hfind]

/-- Witness for C9 at the one-user probe store. -/
theorem updateAccessToken_frame_witness :
    ∃ store' : Firestore,
      updateAccessToken shaProbe "u1" freshToken probeStoreCreated =
        .ok (freshToken, store') ∧
      store'.lineLoginState = probeStoreCreated.lineLoginState ∧
      List.Forall₂ (fun p p' : String × UserData =>
          p'.1 = p.1 ∧ p'.2.name = p.2.name ∧
          p'.2.lineUserId = p.2.lineUserId ∧
          p'.2.imageFileHash = p.2.imageFileHash ∧
          p'.2.createdAt = p.2.createdAt ∧
          (∀ w t, p'.2.classInTimeTable.cell w t =
            p.2.classInTimeTable.cell w t) ∧
          (p.1 ≠ "u1" → p'.2.lastIssuedAccessTokenHash =
            p.2.lastIssuedAccessTokenHash) ∧
          (p.1 = "u1" → p'.2.lastIssuedAccessTokenHash =
            hashAccessToken shaProbe freshToken))
        probeStoreCreated.user store'.user ∧
      verifyAccessTokenAndGetUserData shaProbe freshToken store' =
        .ok { id := "u1", name := probeUserData.name,
              imageFileHash := probeUserData.imageFileHash,
              classInTimeTable := probeUserData.classInTimeTable } :=
  updateAccessToken_frame shaProbe "u1" freshToken probeStoreCreated
    probeUserData
    (by simp [probeStoreCreated])
    (by simp [probeStoreCreated])
    (by
      intro p hp
      simp only [probeStoreCreated, List.mem_singleton] at hp
      subst hp
      exact (by decide :
        probeUserData.lastIssuedAccessTokenHash ≠
          hashAccessToken shaProbe freshToken))

/-! ## C2: a cell write changes that cell and nothing else -/

/-- C2: after a successful `setClass(token, week, time, classId)`, reading
the user's grid shows `classId` in cell `(week, time)` while each of the
other 29 cells holds exactly the value it held before; the returned
snapshot is the read user data with that single cell replaced. -/
theorem setClass_frame (sha : List Nat → String) (tok : String) (w : Week)
    (t : Time) (v : Option ClassId) (store : Firestore) (u : UserOutType)
    (hkeys : store.user.Pairwise fun a b => a.1 ≠ b.1)
    (h : verifyAccessTokenAndGetUserData sha tok store = .ok u) :
    ∃ store' : Firestore,
      setClass sha tok w t v store =
        .ok ({ u with
          classInTimeTable := u.classInTimeTable.cellSet w t v }, store') ∧
      getUser u.id store = .ok ⟨u.name, u.classInTimeTable, u.imageFileHash⟩ ∧
      getUser u.id store' =
        .ok ⟨u.name, u.classInTimeTable.cellSet w t v, u.imageFileHash⟩ ∧
      (u.classInTimeTable.cellSet w t v).cell w t = v ∧
      ∀ w' t', (w', t') ≠ (w, t) →
        (u.classInTimeTable.cellSet w t v).cell w' t' =
          u.classInTimeTable.cell w' t' := by
  obtain ⟨p, hfind, rfl⟩ := verify_ok_elim sha tok store u h
  have hpmem : p ∈ store.user := List.mem_of_find?_eq_some hfind
  have hpmem' : (p.1, p.2) ∈ store.user := by simpa using hpmem
  have hkeyfind : store.user.find? (fun q => q.1 = p.1) = some (p.1, p.2) :=
    find?_key_of_pairwise store.user p.1 p.2 hkeys hpmem'
  refine ⟨{ store with
      user := updateUserDoc p.1
        (fun x => { x with
          classInTimeTable := x.classInTimeTable.cellSet w t v })
        store.user }, ?_, ?_, ?_,
    ClassOfWeek.cell_cellSet_self _ _ _ _,
    fun w' t' hne => ClassOfWeek.cell_cellSet_of_ne _ _ _ _ _ _ hne⟩
  · unfold setClass
    rw [h]
  · unfold getUser
    rw [hkeyfind]
  · have hkeyfind' :
        (updateUserDoc p.1
            (fun x => { x with
              classInTimeTable := x.classInTimeTable.cellSet w t v })
            store.user).find? (fun q => q.1 = p.1) =
          some (p.1, { p.2 with
            classInTimeTable := p.2.classInTimeTable.cellSet w t v }) := by
      rw [find?_updateUserDoc_of_invariant _ _ _ _
        (by
          intro q
          by_cases hq : q.1 = p.1 <;> simp [hq])]
      rw [hkeyfind]
      simp
    unfold getUser
    rw [hkeyfind']

/-! ## C7: a repeated identical cell write is a no-op -/

/-- C7: calling `setClass` a second time with identical arguments
succeeds, returns the same snapshot, and leaves the store exactly as
after the first call. -/
theorem setClass_idempotent (sha : List Nat → String) (tok : String)
    (w : Week) (t : Time) (v : Option ClassId) (store : Firestore)
    (u : UserOutType)
    (h : verifyAccessTokenAndGetUserData sha tok store = .ok u) :
    ∃ (out₁ : UserOutType) (store₁ : Firestore),
      setClass sha tok w t v store = .ok (out₁, store₁) ∧
      setClass sha tok w t v store₁ = .ok (out₁, store₁) := by
  obtain ⟨p, hfind, rfl⟩ := verify_ok_elim sha tok store u h
  have hver2 :
      verifyAccessTokenAndGetUserData sha tok
        { store with
          user := updateUserDoc p.1
            (fun x => { x with
              classInTimeTable := x.classInTimeTable.cellSet w t v })
            store.user } =
        .ok { id := p.1, name := p.2.name, imageFileHash := p.2.imageFileHash,
              classInTimeTable := p.2.classInTimeTable.cellSet w t v } := by
    unfold verifyAccessTokenAndGetUserData
    dsimp only
    rw [find?_updateUserDoc_of_invariant _ _ _ _
      (by
        intro q
        by_cases hq : q.1 = p.1 <;> simp [hq])]
    rw [hfind]
    simp
  refine ⟨({ id := p.1, name := p.2.name,
             imageFileHash := p.2.imageFileHash,
             classInTimeTable := p.2.classInTimeTable.cellSet w t v } :
              UserOutType),
    ({ store with
       user := updateUserDoc p.1
         (fun x => { x with
           classInTimeTable := x.classInTimeTable.cellSet w t v })
         store.user } : Firestore), ?_, ?_⟩
  · unfold setClass
    rw [h]
  · unfold setClass
    rw [hver2]
    dsimp only
    have hgrid :
        (p.2.classInTimeTable.cellSet w t v).cellSet w t v =
          p.2.classInTimeTable.cellSet w t v :=
      ClassOfWeek.cellSet_cellSet_same _ _ _ _
    have hstore :
        updateUserDoc p.1
            (fun x => { x with
              classInTimeTable := x.classInTimeTable.cellSet w t v })
            (updateUserDoc p.1
              (fun x => { x with
                classInTimeTable := x.classInTimeTable.cellSet w t v })
              store.user) =
          updateUserDoc p.1
            (fun x => { x with
              classInTimeTable := x.classInTimeTable.cellSet w t v })
            store.user := by
      rw [updateUserDoc_updateUserDoc]
      exact updateUserDoc_congr _ _ _ _
        (fun x => by rw [ClassOfWeek.cellSet_cellSet_same])
    simp only [hgrid, hstore]

/-- Witness for C2: writing Monday's first period at the one-user probe
store. -/
theorem setClass_frame_witness :
    ∃ store' : Firestore,
      setClass shaProbe collisionTokenA .monday .class1 (some "c1")
          probeStoreCreated =
        .ok ({ probeUserOut with
          classInTimeTable :=
            probeUserOut.classInTimeTable.cellSet .monday .class1
              (some "c1") }, store') ∧
      getUser probeUserOut.id probeStoreCreated =
        .ok ⟨probeUserOut.name, probeUserOut.classInTimeTable,
          probeUserOut.imageFileHash⟩ ∧
      getUser probeUserOut.id store' =
        .ok ⟨probeUserOut.name,
          probeUserOut.classInTimeTable.cellSet .monday .class1 (some "c1"),
          probeUserOut.imageFileHash⟩ ∧
      (probeUserOut.classInTimeTable.cellSet .monday .class1
        (some "c1")).cell .monday .class1 = some "c1" ∧
      ∀ w' t', (w', t') ≠ (Week.monday, Time.class1) →
        (probeUserOut.classInTimeTable.cellSet .monday .class1
          (some "c1")).cell w' t' =
          probeUserOut.classInTimeTable.cell w' t' :=
  setClass_frame shaProbe collisionTokenA .monday .class1 (some "c1")
    probeStoreCreated probeUserOut (by simp [probeStoreCreated]) rfl

/-- Witness for C7: repeating the same cell write at the one-user probe
store. -/
theorem setClass_idempotent_witness :
    ∃ (out₁ : UserOutType) (store₁ : Firestore),
      setClass shaProbe collisionTokenA .monday .class1 (some "c1")
          probeStoreCreated = .ok (out₁, store₁) ∧
      setClass shaProbe collisionTokenA .monday .class1 (some "c1")
          store₁ = .ok (out₁, store₁) :=
  setClass_idempotent shaProbe collisionTokenA .monday .class1 (some "c1")
    probeStoreCreated probeUserOut rfl

/-! ## C4: a callback with an unknown or consumed state value -/

/-- C4 is false as stated: at a concrete callback whose state value is
not in the login-state store, `lineLoginCallback` answers with a 400
`badRequest` naming the state — not with a redirect to the app's home
page (that redirect is sent only when `code` or `state` is missing from
the query). -/
theorem lineLoginCallback_unknown_state_counterexample :
    lineLoginCallback shaProbe probeExchange "img1" "u2" freshToken 0
        (some "code1") (some "state9") probeStoreCreated =
      (.badRequest
        "LINE LogIn Error: Definy dose not generate state (state9)",
        probeStoreCreated) ∧
    (lineLoginCallback shaProbe probeExchange "img1" "u2" freshToken 0
        (some "code1") (some "state9") probeStoreCreated).1 ≠
      .redirect appHttpsSchemeAndHostName :=
  ⟨rfl, by decide⟩

/-- C4 (amended): a callback presenting a state value not found in the
login-state store is rejected with a 400 `badRequest` response naming
the state, the store is left unchanged — so no user is created and no
access token is issued.  (The redirect to the app's home page is the
response to a request missing `code` or `state`, not to an unknown
state.) -/
theorem lineLoginCallback_unknown_state_aborts (sha : List Nat → String)
    (exchange : String → Option LineProfile) (img uid tok : String)
    (now : Nat) (codeValue stateValue : String) (store : Firestore)
    (hunknown : ∀ p ∈ store.lineLoginState, p.1 ≠ stateValue) :
    lineLoginCallback sha exchange img uid tok now
        (some codeValue) (some stateValue) store =
      (.badRequest ("LINE LogIn Error: Definy dose not generate state (" ++
        stateValue ++ ")"), store) := by
  have hcheck : checkExistsAndDeleteState stateValue store = (false, store) := by
    unfold checkExistsAndDeleteState
    rw [List.find?_eq_none.mpr (fun p hp => by simp [hunknown p hp])]
  unfold lineLoginCallback
  dsimp only
  rw [hcheck]

/-- Witness for the amended C4 at a concrete unknown state. -/
theorem lineLoginCallback_unknown_state_aborts_witness :
    lineLoginCallback shaProbe probeExchange "img1" "u2" freshToken 0
        (some "code1") (some "state9") probeStoreCreated =
      (.badRequest ("LINE LogIn Error: Definy dose not generate state (" ++
        "state9" ++ ")"), probeStoreCreated) :=
  lineLoginCallback_unknown_state_aborts shaProbe probeExchange "img1" "u2"
    freshToken 0 "code1" "state9" probeStoreCreated
    (by simp [probeStoreCreated])

end Clavision
